import Mathlib

/-!
Shallow embedding of the design-pattern demonstration scripts of the
`python-design-patterns` repository, together with proofs about the
properties its specification states.

Each Python module is embedded as a namespace.  Python exceptions become
`Except` results; because a Python exception leaves any mutations that
happened before the `raise` in place, fallible operations return the
error together with the state at the moment of the raise.  Python `int`
is embedded as `Int`, Python lists as `List`, and Python dictionaries
with string keys appear as association lists in insertion order.
-/

set_option autoImplicit false

/-- The Python exceptions raised by the embedded modules.  `OverLimitError`
carries its message string because the Pool module formats one. -/
inductive PyErr where
  | overLimitError (msg : String)
  | workerBusyError
  | indexError
  | runtimeError
  deriving DecidableEq, Repr

/-! ## creational/pool.py -/

namespace PoolMod

/-- `class Worker: pass` — a worker object with no observable state. -/
inductive Worker where
  | mk
  deriving DecidableEq, Repr

/-- The state of a `WorkerPool`: the `_workers` list of idle workers and
the `active_count` counter (a Python `int`, hence `Int`: the code
decrements it without a lower bound check). -/
structure WorkerPool where
  workers : List Worker
  active_count : Int
  deriving DecidableEq, Repr

namespace WorkerPool

/-- The class constant `limit = 8`. -/
def limit : Int := 8

/-- `within_limit_check(count)`: raises `OverLimitError` when
`count > limit or count <= 0`, otherwise returns `True`. -/
def within_limit_check (count : Int) : Except PyErr Bool :=
  if count > limit ∨ count ≤ 0 then
    .error (.overLimitError ("Valid Worker Count Range: 0 - " ++ toString limit))
  else
    .ok true

/-- `__init__(count)`: checks the limit, then builds `count` workers and
sets `active_count` to 0. -/
def init (count : Int) : Except PyErr WorkerPool :=
  match within_limit_check count with
  | .error e => .error e
  | .ok _ => .ok ⟨List.replicate count.toNat Worker.mk, 0⟩

/-- `activate_worker()`: increments `active_count`, then pops (and
returns) the last idle worker.  Popping an empty list raises
`IndexError` — with the counter already incremented, as in the source. -/
def activate_worker (p : WorkerPool) : Except (PyErr × WorkerPool) (Worker × WorkerPool) :=
  let p2 : WorkerPool := { p with active_count := p.active_count + 1 }
  match p2.workers.getLast? with
  | none => .error (.indexError, p2)
  | some w => .ok (w, { p2 with workers := p2.workers.dropLast })

/-- `deactivate_worker(worker)`: decrements `active_count` and appends
the worker back to `_workers`. -/
def deactivate_worker (p : WorkerPool) (w : Worker) : WorkerPool :=
  { p with active_count := p.active_count - 1, workers := p.workers ++ [w] }

/-- `k` consecutive `self._workers.pop()` calls: each removes the last
element; popping an empty list raises `IndexError`, leaving the pops
already performed in place. -/
def popTimes : List Worker → Nat → Except (PyErr × List Worker) (List Worker)
  | l, 0 => .ok l
  | l, k + 1 =>
    if l.isEmpty then .error (.indexError, l)
    else popTimes l.dropLast k

/-- `resize(new_count)`: limit-check, compute
`diff = new_count - (len(_workers) + active_count)`; grow by appending
fresh workers when `diff > 0`; when `diff < 0`, the source compares
`diff > len(self._workers)` (note: `diff`, not `abs(diff)`) before
raising `WorkerBusyError`, else pops `abs(diff)` workers. -/
def resize (p : WorkerPool) (new_count : Int) : Except (PyErr × WorkerPool) WorkerPool :=
  match within_limit_check new_count with
  | .error e => .error (e, p)
  | .ok _ =>
    let total : Int := p.workers.length + p.active_count
    let diff : Int := new_count - total
    if diff = 0 then .ok p
    else if diff > 0 then
      .ok { p with workers := p.workers ++ List.replicate diff.toNat Worker.mk }
    else if diff > (p.workers.length : Int) then
      .error (.workerBusyError, p)
    else
      match popTimes p.workers diff.natAbs with
      | .ok l => .ok { p with workers := l }
      | .error (e, l) => .error (e, { p with workers := l })

/-- `True` exactly when the result is a raised `WorkerBusyError`. -/
def raisedBusy (r : Except (PyErr × WorkerPool) WorkerPool) : Bool :=
  match r with
  | .error (.workerBusyError, _) => true
  | _ => false

end WorkerPool

end PoolMod

/-! ## behavioural/chain_of_responsibility.py -/

namespace ChainMod

/-- A Python value occurring in a candidate dictionary: a string or an
integer. -/
inductive PyVal where
  | s (v : String)
  | i (v : Int)
  deriving DecidableEq, Repr

/-- A candidate dictionary, as its `items()` in insertion order. -/
abbrev Candidate := List (String × PyVal)

/-- `all(key in candidate.items() for key in params.items())`: every
key—value pair of `params` occurs among the candidate's pairs. -/
def matchesParams (params candidate : Candidate) : Bool :=
  params.all (fun kv => candidate.contains kv)

/-- `_find(params)`: the first candidate of the pool whose items contain
all pairs of `params`, if any (the source returns `None` otherwise). -/
def find (candidates : List Candidate) (params : Candidate) : Option Candidate :=
  candidates.find? (fun c => matchesParams params c)

/-- A pool in the chain: its class-level `candidates` list and its
`_successor` pointer.  `last` plays the role of a successor of `None`;
`chained` stores the successor pool. -/
inductive AbstractPool where
  | last (candidates : List Candidate)
  | chained (candidates : List Candidate) (successor : AbstractPool)
  deriving DecidableEq, Repr

/-- `get_match(params)`: return the local `_find` result when it is
truthy (a non-empty dictionary), else hand the request to the successor;
with no successor the method falls through and returns `None`. -/
def get_match : AbstractPool → Candidate → Option Candidate
  | .last cands, params =>
    match find cands params with
    | some m => if m.isEmpty then none else some m
    | none => none
  | .chained cands succ, params =>
    match find cands params with
    | some m => if m.isEmpty then get_match succ params else some m
    | none => get_match succ params

/-- `LocalPool.candidates`. -/
def localCandidates : List Candidate :=
  [[("id", .i 12), ("type", .s "developer"), ("level", .s "intermediate")],
   [("id", .i 21), ("type", .s "analyst"), ("level", .s "junior")]]

/-- `RegionalPool.candidates`. -/
def regionalCandidates : List Candidate :=
  [[("id", .i 123), ("type", .s "project_manager"), ("level", .s "intermediate")],
   [("id", .i 321), ("type", .s "designer"), ("level", .s "intermediate")]]

/-- `GlobalPool.candidates`. -/
def globalCandidates : List Candidate :=
  [[("id", .i 1234), ("type", .s "developer"), ("level", .s "senior")],
   [("id", .i 4321), ("type", .s "designer"), ("level", .s "senior")]]

/-- The demo wiring `local -> regional -> global` built in `__main__`. -/
def demoChain : AbstractPool :=
  .chained localCandidates (.chained regionalCandidates (.last globalCandidates))

/-- The matching candidate of the global pool. -/
def seniorDeveloper : Candidate :=
  [("id", .i 1234), ("type", .s "developer"), ("level", .s "senior")]

end ChainMod

/-! ## behavioural/memento.py -/

namespace MementoMod

/-- `MapCheckpoint`: a snapshot of the map plus a message. -/
structure MapCheckpoint where
  map_state : List (List String)
  message : String
  deriving DecidableEq, Repr

/-- `MapBuilder`: its `map_size` pair `(w, h)` and its 2-d `map`, a list
of `h` rows of `w` tiles. -/
structure MapBuilder where
  map_size : Int × Int
  map : List (List String)
  deriving DecidableEq, Repr

namespace MapBuilder

/-- `_build_default_map()`: `map_size[1]` rows of `map_size[0]` dashes. -/
def build_default_map (map_size : Int × Int) : List (List String) :=
  List.replicate map_size.2.toNat (List.replicate map_size.1.toNat "-")

/-- `__init__(map_size)`. -/
def init (map_size : Int × Int) : MapBuilder :=
  ⟨map_size, build_default_map map_size⟩

/-- Python list indexing: index `i` into a list of length `len` resolves
to position `i` when `0 ≤ i < len`, wraps to `len + i` when
`-len ≤ i < 0`, and raises `IndexError` otherwise. -/
def pyIndex (len : Nat) (i : Int) : Option Nat :=
  if 0 ≤ i ∧ i < len then some i.toNat
  else if -(len : Int) ≤ i ∧ i < 0 then some (len + i).toNat
  else none

/-- `draw(coords, value)`: when `not (coords[0] < w and coords[1] < h)`
print and return `False`; otherwise execute
`self.map[coords[1]][coords[0]] = value` with Python indexing (so a
sufficiently negative coordinate raises `IndexError`, and a small
negative one silently wraps).  A successful draw returns `None`. -/
def draw (mb : MapBuilder) (coords : Int × Int) (value : String) :
    Except (PyErr × MapBuilder) (MapBuilder × Option Bool) :=
  if ¬(coords.1 < mb.map_size.1 ∧ coords.2 < mb.map_size.2) then
    .ok (mb, some false)
  else
    match pyIndex mb.map.length coords.2 with
    | none => .error (.indexError, mb)
    | some yi =>
      let row := mb.map.getD yi []
      match pyIndex row.length coords.1 with
      | none => .error (.indexError, mb)
      | some xi => .ok ({ mb with map := mb.map.set yi (row.set xi value) }, none)

/-- `create_checkpoint(message)`: a `MapCheckpoint` holding a deep copy
of the map (value semantics make the copy literal). -/
def create_checkpoint (mb : MapBuilder) (message : String) : MapCheckpoint :=
  ⟨mb.map, message⟩

/-- `restore_from_checkpoint(checkpoint)`: replace the map with a deep
copy of the checkpoint's `map_state`. -/
def restore_from_checkpoint (mb : MapBuilder) (cp : MapCheckpoint) : MapBuilder :=
  { mb with map := cp.map_state }

/-- Run a sequence of `draw` calls, keeping the state a raise leaves
behind (the demo never catches exceptions; this lets the theorems
quantify over any sequence of attempted draws). -/
def applyDraws (mb : MapBuilder) : List ((Int × Int) × String) → MapBuilder
  | [] => mb
  | (c, v) :: ds =>
    match draw mb c v with
    | .ok (mb2, _) => applyDraws mb2 ds
    | .error (_, mb2) => applyDraws mb2 ds

end MapBuilder

/-- The specification's notion of a coordinate pair lying inside a map
of size `(w, h)`: a valid tile position.  Stated from the spec's words,
to be compared against what `draw` actually checks. -/
def validTilePos (size coords : Int × Int) : Prop :=
  0 ≤ coords.1 ∧ coords.1 < size.1 ∧ 0 ≤ coords.2 ∧ coords.2 < size.2

instance (size coords : Int × Int) : Decidable (validTilePos size coords) := by
  unfold validTilePos; infer_instance

/-- `CheckpointLog`: the `_checkpoints` list and the configured
`max_length` (a count of checkpoints, default 3). -/
structure CheckpointLog where
  checkpoints : List MapCheckpoint
  max_length : Nat
  deriving DecidableEq, Repr

namespace CheckpointLog

/-- `__init__(max_length=3)`. -/
def init (max_length : Nat := 3) : CheckpointLog :=
  ⟨[], max_length⟩

/-- `add(new_checkpoint)`: when the log is at `max_length`, delete the
checkpoint at index 0 (deleting from an empty list raises `IndexError`),
then append the new checkpoint. -/
def add (log : CheckpointLog) (c : MapCheckpoint) :
    Except (PyErr × CheckpointLog) CheckpointLog :=
  if log.checkpoints.length = log.max_length then
    match log.checkpoints with
    | [] => .error (.indexError, log)
    | _ :: tl => .ok { log with checkpoints := tl ++ [c] }
  else
    .ok { log with checkpoints := log.checkpoints ++ [c] }

/-- Run a sequence of `add` calls, keeping the state a raise leaves
behind. -/
def runAdds (log : CheckpointLog) : List MapCheckpoint → CheckpointLog
  | [] => log
  | c :: cs =>
    match add log c with
    | .ok l => runAdds l cs
    | .error (_, l) => runAdds l cs

end CheckpointLog

end MementoMod

/-! ## behavioural/command.py -/

namespace CommandMod

/-- A migration command.  `MigrationCommand.run` prints and succeeds;
`BadMigrationCommand.run` raises `RuntimeError`; `runFails` records
which of the two classes the object belongs to.  Both inherit the
printing `rollback`. -/
structure MigrationCommand where
  title : String
  runFails : Bool
  deriving DecidableEq, Repr

/-- The console events a run produces: a completed `run()` and a
`rollback()`. -/
inductive MigEvent where
  | ran (title : String)
  | rolledBack (title : String)
  deriving DecidableEq, Repr

namespace Invoker

/-- `rollback_all()`: with `_version == 0` print and return; otherwise
roll back `migrations[:_version]` in reverse order, decrementing
`_version` once per rollback.  Returns the rollback events and the final
`_version`. -/
def rollback_all (migrations : List MigrationCommand) (version : Nat) :
    List MigEvent × Nat :=
  if version = 0 then ([], version)
  else
    ((migrations.take version).reverse.map (fun m => MigEvent.rolledBack m.title),
     version - (migrations.take version).length)

/-- The loop of `run_all`, carrying the invoker's full migration list
(used by `rollback_all`), the remaining migrations and `_version`.
On a failing `run()` it catches the exception, rolls everything back and
returns `False`; on completion it returns `None`. -/
def runAllLoop (migrations : List MigrationCommand) :
    List MigrationCommand → Nat → List MigEvent × Nat × Option Bool
  | [], version => ([], version, none)
  | m :: rest, version =>
    if m.runFails then
      let (rbEvents, v2) := rollback_all migrations version
      (rbEvents, v2, some false)
    else
      let (events, v2, r) := runAllLoop migrations rest (version + 1)
      (MigEvent.ran m.title :: events, v2, r)

/-- `run_all()` on a fresh `Invoker(migrations)` (so `_version = 0`):
the produced events, the final `_version` and the return value. -/
def run_all (migrations : List MigrationCommand) : List MigEvent × Nat × Option Bool :=
  runAllLoop migrations migrations 0

end Invoker

end CommandMod

/-! ## Theorems -/

section Theorems

open PoolMod MementoMod ChainMod CommandMod

/-- C2: with the chain wired `local -> regional -> global`, a request
for a senior developer is answered by the global pool's candidate with
id 1234, which belongs to neither the local nor the regional pool. -/
theorem chain_senior_developer_from_global_pool :
    ChainMod.get_match ChainMod.demoChain [("type", .s "developer"), ("level", .s "senior")] =
        some ChainMod.seniorDeveloper
    ∧ ChainMod.seniorDeveloper ∈ ChainMod.globalCandidates
    ∧ ChainMod.seniorDeveloper ∉ ChainMod.localCandidates
    ∧ ChainMod.seniorDeveloper ∉ ChainMod.regionalCandidates :=
  ⟨rfl, by decide, by decide, by decide⟩

/-- C8: a checkpoint created from a builder records the map at creation
time; however the builder's map is mutated by later draws, restoring
from that checkpoint yields the creation-time map, and the stored
`map_state` itself is the creation-time map. -/
theorem memento_checkpoint_isolated (mb : MementoMod.MapBuilder) (msg : String)
    (ds : List ((Int × Int) × String)) :
    (MementoMod.MapBuilder.restore_from_checkpoint
        (MementoMod.MapBuilder.applyDraws mb ds)
        (MementoMod.MapBuilder.create_checkpoint mb msg)).map = mb.map
    ∧ (MementoMod.MapBuilder.create_checkpoint mb msg).map_state = mb.map :=
  ⟨rfl, rfl⟩

/-- C6: the embedded operations are deterministic — from equal states
and equal arguments each public operation produces equal results. -/
theorem examples_deterministic :
    (∀ (p q : PoolMod.WorkerPool) (n : Int), p = q →
        PoolMod.WorkerPool.resize p n = PoolMod.WorkerPool.resize q n)
    ∧ (∀ (p q : PoolMod.WorkerPool), p = q →
        PoolMod.WorkerPool.activate_worker p = PoolMod.WorkerPool.activate_worker q)
    ∧ (∀ (p q : PoolMod.WorkerPool) (w : PoolMod.Worker), p = q →
        PoolMod.WorkerPool.deactivate_worker p w = PoolMod.WorkerPool.deactivate_worker q w)
    ∧ (∀ (c d : ChainMod.AbstractPool) (params : ChainMod.Candidate), c = d →
        ChainMod.get_match c params = ChainMod.get_match d params)
    ∧ (∀ (mb mc : MementoMod.MapBuilder) (coords : Int × Int) (v : String), mb = mc →
        MementoMod.MapBuilder.draw mb coords v = MementoMod.MapBuilder.draw mc coords v)
    ∧ (∀ (la lb : MementoMod.CheckpointLog) (c : MementoMod.MapCheckpoint), la = lb →
        MementoMod.CheckpointLog.add la c = MementoMod.CheckpointLog.add lb c)
    ∧ (∀ (ms mt : List CommandMod.MigrationCommand), ms = mt →
        CommandMod.Invoker.run_all ms = CommandMod.Invoker.run_all mt)
    ∧ (∀ (n n2 : Int), n = n2 →
        PoolMod.WorkerPool.init n = PoolMod.WorkerPool.init n2)
    ∧ (∀ (mb mc : MementoMod.MapBuilder) (msg : String), mb = mc →
        MementoMod.MapBuilder.create_checkpoint mb msg =
          MementoMod.MapBuilder.create_checkpoint mc msg)
    ∧ (∀ (mb mc : MementoMod.MapBuilder) (cp : MementoMod.MapCheckpoint), mb = mc →
        MementoMod.MapBuilder.restore_from_checkpoint mb cp =
          MementoMod.MapBuilder.restore_from_checkpoint mc cp) :=
  ⟨fun _ _ _ h => by rw [h], fun _ _ h => by rw [h], fun _ _ _ h => by rw [h],
   fun _ _ _ h => by rw [h], fun _ _ _ _ h => by rw [h], fun _ _ _ h => by rw [h],
   fun _ _ h => by rw [h], fun _ _ h => by rw [h], fun _ _ _ h => by rw [h],
   fun _ _ _ h => by rw [h]⟩

/-- Witness for C6 at a concrete pool. -/
theorem examples_deterministic_witness :
    PoolMod.WorkerPool.resize ⟨[PoolMod.Worker.mk], 0⟩ 1 =
      PoolMod.WorkerPool.resize ⟨[PoolMod.Worker.mk], 0⟩ 1 :=
  examples_deterministic.1 ⟨[PoolMod.Worker.mk], 0⟩ ⟨[PoolMod.Worker.mk], 0⟩ 1 rfl

/-- C9: `within_limit_check` raises `OverLimitError` — whose message
names the range `0 - 8` — exactly when the count is nonpositive or
exceeds 8, and returns `True` otherwise. -/
theorem pool_within_limit_check_iff (count : Int) :
    (PoolMod.WorkerPool.within_limit_check count =
        .error (.overLimitError "Valid Worker Count Range: 0 - 8")
      ↔ count ≤ 0 ∨ 8 < count)
    ∧ (0 < count → count ≤ 8 →
        PoolMod.WorkerPool.within_limit_check count = .ok true) := by
  unfold PoolMod.WorkerPool.within_limit_check PoolMod.WorkerPool.limit
  by_cases h : count > 8 ∨ count ≤ 0
  · rw [if_pos h]
    refine ⟨⟨fun _ => ?_, fun _ => rfl⟩, fun h1 h2 => ?_⟩
    · omega
    · exfalso; rcases h with h | h <;> omega
  · rw [if_neg h]
    push_neg at h
    refine ⟨⟨fun hc => ?_, fun hc => ?_⟩, fun _ _ => rfl⟩
    · cases hc
    · exfalso; rcases hc with hc | hc <;> omega

/-- Witness for C9: a requested count of 0 is rejected with the
`0 - 8` message, and a count of 3 passes. -/
theorem pool_within_limit_check_witness :
    PoolMod.WorkerPool.within_limit_check 0 =
        .error (.overLimitError "Valid Worker Count Range: 0 - 8")
    ∧ PoolMod.WorkerPool.within_limit_check 3 = .ok true :=
  ⟨(pool_within_limit_check_iff 0).1.mpr (by omega),
   (pool_within_limit_check_iff 3).2 (by omega) (by omega)⟩

/-- Helper: `within_limit_check` only ever raises `OverLimitError`. -/
theorem within_limit_check_error_shape (c : Int) (e : PyErr)
    (h : PoolMod.WorkerPool.within_limit_check c = .error e) :
    ∃ msg, e = .overLimitError msg := by
  unfold PoolMod.WorkerPool.within_limit_check at h
  split at h
  · exact ⟨_, (Except.error.inj h).symm⟩
  · cases h

/-- Helper: a passing `within_limit_check` means `0 < c ≤ 8`. -/
theorem within_limit_check_ok_bounds (c : Int) (b : Bool)
    (h : PoolMod.WorkerPool.within_limit_check c = .ok b) :
    0 < c ∧ c ≤ 8 := by
  unfold PoolMod.WorkerPool.within_limit_check PoolMod.WorkerPool.limit at h
  split at h
  · cases h
  next hc => exact ⟨by omega, by omega⟩

/-- Helper: a failing pop sequence raises `IndexError`, never anything
else. -/
theorem popTimes_error_shape (k : Nat) :
    ∀ (l s : List PoolMod.Worker) (e : PyErr),
      PoolMod.WorkerPool.popTimes l k = .error (e, s) → e = .indexError := by
  induction k with
  | zero =>
    intro l s e h
    cases h
  | succ k ih =>
    intro l s e h
    unfold PoolMod.WorkerPool.popTimes at h
    split at h
    · simp only [Except.error.injEq, Prod.mk.injEq] at h
      exact h.1.symm
    · exact ih _ _ _ h

/-- Helper: a successful pop sequence removed exactly `k` workers. -/
theorem popTimes_ok_length (k : Nat) :
    ∀ (l l2 : List PoolMod.Worker),
      PoolMod.WorkerPool.popTimes l k = .ok l2 → l2.length + k = l.length := by
  induction k with
  | zero =>
    intro l l2 h
    cases h
    rfl
  | succ k ih =>
    intro l l2 h
    unfold PoolMod.WorkerPool.popTimes at h
    split at h
    · cases h
    next hne =>
      have hlen := ih _ _ h
      have hl : l ≠ [] := by simpa [List.isEmpty_iff] using hne
      have hpos : 0 < l.length := List.length_pos.mpr hl
      have hdrop : l.dropLast.length = l.length - 1 := List.length_dropLast l
      omega

/-- C1: shrinking a pool below its number of active workers does not
raise `WorkerBusyError` — the comparison `diff > len(self._workers)`
never holds for a negative `diff`, so the code instead pops the idle
workers one by one and raises `IndexError` from the emptied list: on the
concrete pool with 1 idle and 3 active workers, `resize(2)` empties
`_workers` and raises `IndexError`; moreover no `resize` call on any
pool ever raises `WorkerBusyError`. -/
theorem pool_resize_shrink_below_active_raises_indexError :
    PoolMod.WorkerPool.resize ⟨[PoolMod.Worker.mk], 3⟩ 2 =
        .error (.indexError, ⟨[], 3⟩)
    ∧ ∀ (p : PoolMod.WorkerPool) (n : Int),
        PoolMod.WorkerPool.raisedBusy (PoolMod.WorkerPool.resize p n) = false := by
  constructor
  · rfl
  · intro p n
    simp only [PoolMod.WorkerPool.resize]
    split
    next e heq =>
      obtain ⟨msg, rfl⟩ := within_limit_check_error_shape n e heq
      rfl
    next b heq =>
      split_ifs with h1 h2 h3
      · rfl
      · rfl
      · exfalso
        omega
      · split
        next l hpop => rfl
        next e2 l hpop =>
          obtain rfl := popTimes_error_shape _ _ _ _ hpop
          rfl

/-- C7: the pool conserves its total worker count: construction with
count `n` yields total `n`; `activate_worker` and `deactivate_worker`
preserve `len(_workers) + active_count`; a normally returning
`resize(m)` leaves the total equal to `m`. -/
theorem pool_conserves_worker_total (n m : Int) (p : PoolMod.WorkerPool)
    (w : PoolMod.Worker) :
    (PoolMod.WorkerPool.init n = .ok p →
        (p.workers.length : Int) + p.active_count = n)
    ∧ (∀ (wk : PoolMod.Worker) (p2 : PoolMod.WorkerPool),
        PoolMod.WorkerPool.activate_worker p = .ok (wk, p2) →
        (p2.workers.length : Int) + p2.active_count =
          (p.workers.length : Int) + p.active_count)
    ∧ ((PoolMod.WorkerPool.deactivate_worker p w).workers.length : Int) +
          (PoolMod.WorkerPool.deactivate_worker p w).active_count =
        (p.workers.length : Int) + p.active_count
    ∧ (∀ (p2 : PoolMod.WorkerPool),
        PoolMod.WorkerPool.resize p m = .ok p2 →
        (p2.workers.length : Int) + p2.active_count = m) := by
  refine ⟨?_, ?_, ?_, ?_⟩
  · intro h
    unfold PoolMod.WorkerPool.init at h
    split at h
    · cases h
    next b heq =>
      obtain ⟨hpos, _⟩ := within_limit_check_ok_bounds n b heq
      cases h
      simp only [List.length_replicate]
      omega
  · intro wk p2 h
    simp only [PoolMod.WorkerPool.activate_worker] at h
    split at h
    · cases h
    next wlast heq =>
      cases h
      have hl : p.workers ≠ [] := by
        intro hnil
        rw [hnil] at heq
        cases heq
      have hpos : 0 < p.workers.length := List.length_pos.mpr hl
      have hdrop : p.workers.dropLast.length = p.workers.length - 1 :=
        List.length_dropLast p.workers
      simp only [hdrop]
      omega
  · simp only [PoolMod.WorkerPool.deactivate_worker, List.length_append,
      List.length_singleton]
    push_cast
    ring
  · intro p2 h
    simp only [PoolMod.WorkerPool.resize] at h
    split at h
    · cases h
    next b heq =>
      split at h
      next h1 =>
        cases h
        omega
      next h1 =>
        split at h
        next h2 =>
          cases h
          simp only [List.length_append, List.length_replicate]
          omega
        next h2 =>
          split at h
          next h3 => cases h
          next h3 =>
            split at h
            next l2 hpop =>
              cases h
              have hlen := popTimes_ok_length _ _ _ hpop
              dsimp only
              omega
            next e2 l2 hpop => cases h

/-- Witness for C7: the conservation facts at a concrete pool of two
workers. -/
theorem pool_conserves_worker_total_witness :
    (((⟨[PoolMod.Worker.mk, PoolMod.Worker.mk], 0⟩ :
          PoolMod.WorkerPool).workers.length : Int) + 0 = 2)
    ∧ (((⟨[PoolMod.Worker.mk], 1⟩ : PoolMod.WorkerPool).workers.length : Int) +
          (⟨[PoolMod.Worker.mk], 1⟩ : PoolMod.WorkerPool).active_count =
        ((⟨[PoolMod.Worker.mk, PoolMod.Worker.mk], 0⟩ :
            PoolMod.WorkerPool).workers.length : Int) + 0)
    ∧ (((⟨[PoolMod.Worker.mk], 0⟩ : PoolMod.WorkerPool).workers.length : Int) +
          (⟨[PoolMod.Worker.mk], 0⟩ : PoolMod.WorkerPool).active_count = 1) := by
  refine ⟨?_, ?_, ?_⟩
  · exact (pool_conserves_worker_total 2 1
      ⟨[PoolMod.Worker.mk, PoolMod.Worker.mk], 0⟩ PoolMod.Worker.mk).1 rfl
  · exact (pool_conserves_worker_total 2 1
      ⟨[PoolMod.Worker.mk, PoolMod.Worker.mk], 0⟩ PoolMod.Worker.mk).2.1
      PoolMod.Worker.mk ⟨[PoolMod.Worker.mk], 1⟩ rfl
  · exact (pool_conserves_worker_total 2 1
      ⟨[PoolMod.Worker.mk, PoolMod.Worker.mk], 0⟩ PoolMod.Worker.mk).2.2.2
      ⟨[PoolMod.Worker.mk], 0⟩ rfl

/-- Helper: a successful `add` keeps `max_length` and keeps the
checkpoint count within a bound it already satisfied. -/
theorem add_ok_bound (log l : MementoMod.CheckpointLog) (c : MementoMod.MapCheckpoint)
    (hlen : log.checkpoints.length ≤ log.max_length)
    (h : MementoMod.CheckpointLog.add log c = .ok l) :
    l.max_length = log.max_length ∧ l.checkpoints.length ≤ log.max_length := by
  unfold MementoMod.CheckpointLog.add at h
  split at h
  next hcap =>
    split at h
    · cases h
    next hd tl heq =>
      cases h
      refine ⟨rfl, ?_⟩
      dsimp only
      rw [heq] at hcap
      simp only [List.length_append, List.length_cons, List.length_nil] at hcap ⊢
      omega
  next hcap =>
    cases h
    refine ⟨rfl, ?_⟩
    dsimp only
    simp only [List.length_append, List.length_cons, List.length_nil]
    omega

/-- Helper: a failing `add` leaves the log unchanged. -/
theorem add_error_unchanged (log l : MementoMod.CheckpointLog)
    (c : MementoMod.MapCheckpoint) (e : PyErr)
    (h : MementoMod.CheckpointLog.add log c = .error (e, l)) : l = log := by
  unfold MementoMod.CheckpointLog.add at h
  split at h
  · split at h
    · simp only [Except.error.injEq, Prod.mk.injEq] at h
      exact h.2.symm
    · cases h
  · cases h

/-- Helper: running any sequence of `add` calls preserves `max_length`
and the bound `length ≤ max_length`. -/
theorem runAdds_bounded (cs : List MementoMod.MapCheckpoint) :
    ∀ (log : MementoMod.CheckpointLog),
      log.checkpoints.length ≤ log.max_length →
      (MementoMod.CheckpointLog.runAdds log cs).max_length = log.max_length ∧
        (MementoMod.CheckpointLog.runAdds log cs).checkpoints.length ≤ log.max_length := by
  induction cs with
  | nil =>
    intro log hlen
    exact ⟨rfl, hlen⟩
  | cons c cs ih =>
    intro log hlen
    unfold MementoMod.CheckpointLog.runAdds
    split
    next l heq =>
      obtain ⟨hmax, hb⟩ := add_ok_bound log l c hlen heq
      obtain ⟨ih1, ih2⟩ := ih l (by omega)
      rw [ih1, hmax]
      exact ⟨rfl, by omega⟩
    next e l heq =>
      obtain rfl := add_error_unchanged log l c e heq
      exact ih _ hlen

/-- C3: a `CheckpointLog` with `max_length = m` never holds more than
`m` checkpoints under any sequence of `add` calls, and an `add` on a log
at capacity deletes the checkpoint at index 0 before appending the new
one. -/
theorem checkpoint_log_evicts_oldest (m : Nat) (cs : List MementoMod.MapCheckpoint)
    (log : MementoMod.CheckpointLog) (c hd : MementoMod.MapCheckpoint)
    (tl : List MementoMod.MapCheckpoint) :
    ((MementoMod.CheckpointLog.runAdds (MementoMod.CheckpointLog.init m) cs).checkpoints.length ≤ m)
    ∧ (log.checkpoints.length = log.max_length → log.checkpoints = hd :: tl →
        MementoMod.CheckpointLog.add log c = .ok ⟨tl ++ [c], log.max_length⟩) := by
  constructor
  · exact (runAdds_bounded cs (MementoMod.CheckpointLog.init m) (by simp [MementoMod.CheckpointLog.init])).2
  · intro h1 h2
    unfold MementoMod.CheckpointLog.add
    rw [if_pos h1, h2]

/-- Witness for C3 at `max_length = 1`. -/
theorem checkpoint_log_evicts_oldest_witness :
    (MementoMod.CheckpointLog.runAdds (MementoMod.CheckpointLog.init 1)
        [⟨[], "a"⟩, ⟨[], "b"⟩]).checkpoints.length ≤ 1
    ∧ MementoMod.CheckpointLog.add ⟨[⟨[], "a"⟩], 1⟩ ⟨[], "b"⟩ =
        .ok ⟨[] ++ [⟨[], "b"⟩], 1⟩ :=
  ⟨(checkpoint_log_evicts_oldest 1 [⟨[], "a"⟩, ⟨[], "b"⟩] ⟨[⟨[], "a"⟩], 1⟩
      ⟨[], "b"⟩ ⟨[], "a"⟩ []).1,
   (checkpoint_log_evicts_oldest 1 [⟨[], "a"⟩, ⟨[], "b"⟩] ⟨[⟨[], "a"⟩], 1⟩
      ⟨[], "b"⟩ ⟨[], "a"⟩ []).2 rfl rfl⟩

/-- Helper: the run loop walks over a prefix of migrations whose `run()`
succeeds, recording a `ran` event for each and incrementing the version
once per migration. -/
theorem runAllLoop_clean_front (migs : List CommandMod.MigrationCommand)
    (pre : List CommandMod.MigrationCommand) :
    ∀ (rest : List CommandMod.MigrationCommand) (v : Nat),
      (∀ mc ∈ pre, mc.runFails = false) →
      CommandMod.Invoker.runAllLoop migs (pre ++ rest) v =
        ((pre.map fun mc => CommandMod.MigEvent.ran mc.title) ++
            (CommandMod.Invoker.runAllLoop migs rest (v + pre.length)).1,
          (CommandMod.Invoker.runAllLoop migs rest (v + pre.length)).2) := by
  induction pre with
  | nil =>
    intro rest v _
    simp
  | cons mc pre ih =>
    intro rest v hall
    have hmc : mc.runFails = false := hall mc (by simp)
    have hpre : ∀ x ∈ pre, x.runFails = false := fun x hx => hall x (by simp [hx])
    simp only [List.cons_append, CommandMod.Invoker.runAllLoop, hmc,
      Bool.false_eq_true, if_false, List.append_eq]
    rw [ih rest (v + 1) hpre]
    have hv : v + 1 + pre.length = v + (pre.length + 1) := by omega
    simp [hv]

/-- Helper: rolling back at version `len(pre)` on a migration list that
starts with `pre` rolls back exactly `pre` in reverse order and ends at
version 0. -/
theorem rollback_all_front (pre rest2 : List CommandMod.MigrationCommand) :
    CommandMod.Invoker.rollback_all (pre ++ rest2) pre.length =
      (pre.reverse.map fun mc => CommandMod.MigEvent.rolledBack mc.title, 0) := by
  unfold CommandMod.Invoker.rollback_all
  rcases Nat.eq_zero_or_pos pre.length with h0 | hpos
  · rw [if_pos h0]
    have : pre = [] := List.length_eq_zero.mp h0
    subst this
    simp
  · rw [if_neg (by omega)]
    rw [List.take_left]
    simp

/-- C4: `run_all` is atomic: when the migrations are a clean prefix
`pre` followed by a failing migration, the run records `pre` in order,
rolls `pre` back in reverse order, ends at version 0 and returns
`False`; when no migration fails, all run in order and the version ends
at the number of migrations (returning `None`). -/
theorem command_run_all_atomic (migs pre rest : List CommandMod.MigrationCommand)
    (bad : CommandMod.MigrationCommand) :
    (migs = pre ++ bad :: rest → (∀ mc ∈ pre, mc.runFails = false) →
        bad.runFails = true →
        CommandMod.Invoker.run_all migs =
          ((pre.map fun mc => CommandMod.MigEvent.ran mc.title) ++
              pre.reverse.map (fun mc => CommandMod.MigEvent.rolledBack mc.title),
            0, some false))
    ∧ ((∀ mc ∈ migs, mc.runFails = false) →
        CommandMod.Invoker.run_all migs =
          (migs.map fun mc => CommandMod.MigEvent.ran mc.title, migs.length, none)) := by
  constructor
  · intro hm hpre hbad
    subst hm
    unfold CommandMod.Invoker.run_all
    rw [runAllLoop_clean_front _ pre (bad :: rest) 0 hpre]
    simp [CommandMod.Invoker.runAllLoop, hbad, rollback_all_front pre (bad :: rest)]
  · intro hall
    have h := runAllLoop_clean_front migs migs [] 0 hall
    rw [List.append_nil] at h
    unfold CommandMod.Invoker.run_all
    rw [h]
    simp [CommandMod.Invoker.runAllLoop]

/-- Witness for C4: one failing and one clean migration list. -/
theorem command_run_all_atomic_witness :
    CommandMod.Invoker.run_all [⟨"A", false⟩, ⟨"Bad", true⟩] =
      ([CommandMod.MigEvent.ran "A", CommandMod.MigEvent.rolledBack "A"], 0, some false)
    ∧ CommandMod.Invoker.run_all [⟨"A", false⟩] =
        ([CommandMod.MigEvent.ran "A"], 1, none) := by
  constructor
  · have h := (command_run_all_atomic [⟨"A", false⟩, ⟨"Bad", true⟩] [⟨"A", false⟩]
      [] ⟨"Bad", true⟩).1 rfl (by decide) rfl
    simpa using h
  · have h := (command_run_all_atomic [⟨"A", false⟩] [] [] ⟨"A", false⟩).2 (by decide)
    simpa using h

/-- Helper: Python indexing at a nonnegative in-range index resolves
without wrapping. -/
theorem pyIndex_of_nonneg (len : Nat) (i : Int) (h0 : 0 ≤ i) (hl : i < (len : Int)) :
    MementoMod.MapBuilder.pyIndex len i = some i.toNat := by
  unfold MementoMod.MapBuilder.pyIndex
  rw [if_pos ⟨h0, hl⟩]

/-- C5 counterexample: on a fresh 3×3 map, the coordinate pair
`(-1, 0)` is not a valid tile position, yet `draw` does not return
`False`: it passes the upper-bound-only check, wraps the negative column
index and writes the tile at `(2, 0)`, returning `None`. -/
theorem memento_draw_negative_coords_cex :
    ¬ MementoMod.validTilePos (3, 3) (-1, 0)
    ∧ MementoMod.MapBuilder.draw (MementoMod.MapBuilder.init (3, 3)) (-1, 0) "x" =
        .ok (⟨(3, 3), [["-", "-", "x"], ["-", "-", "-"], ["-", "-", "-"]]⟩, none)
    ∧ (⟨(3, 3), [["-", "-", "x"], ["-", "-", "-"], ["-", "-", "-"]]⟩ :
          MementoMod.MapBuilder) ≠ MementoMod.MapBuilder.init (3, 3) :=
  ⟨(by decide), rfl, (by decide)⟩

/-- C5 (amended): `draw` bounds-checks only from above: for nonnegative
out-of-range coordinates (`x ≥ w` or `y ≥ h`) it returns `False` and
leaves the map unchanged, and for every coordinate pair inside the map
it writes the value to exactly that tile (returning `None`). -/
theorem memento_draw_bounds (mb : MementoMod.MapBuilder) (x y w h : Int) (v : String)
    (hsize : mb.map_size = (w, h))
    (hrows : mb.map.length = h.toNat)
    (hcols : ∀ row ∈ mb.map, row.length = w.toNat) :
    ((w ≤ x ∨ h ≤ y) →
        MementoMod.MapBuilder.draw mb (x, y) v = .ok (mb, some false))
    ∧ (0 ≤ x → x < w → 0 ≤ y → y < h →
        MementoMod.MapBuilder.draw mb (x, y) v =
          .ok ({ mb with
                  map := (mb.map.set y.toNat ((mb.map.getD y.toNat []).set x.toNat v)) },
            none)) := by
  obtain ⟨ms, mp⟩ := mb
  dsimp only at hsize hrows hcols
  subst hsize
  constructor
  · intro hout
    unfold MementoMod.MapBuilder.draw
    rw [if_pos]
    intro hc
    obtain ⟨hc1, hc2⟩ := hc
    dsimp only at hc1 hc2
    rcases hout with hx | hy
    · omega
    · omega
  · intro hx0 hxw hy0 hyh
    unfold MementoMod.MapBuilder.draw
    rw [if_neg]
    · dsimp only
      have hy2 : (y : Int) < (mp.length : Int) := by
        rw [hrows]
        omega
      rw [pyIndex_of_nonneg mp.length y hy0 hy2]
      have hyn : y.toNat < mp.length := by omega
      have hrow : (mp.getD y.toNat []).length = w.toNat := by
        rw [List.getD_eq_getElem mp [] hyn]
        exact hcols _ (List.getElem_mem hyn)
      have hx2 : (x : Int) < ((mp.getD y.toNat []).length : Int) := by
        rw [hrow]
        omega
      dsimp only
      rw [pyIndex_of_nonneg _ x hx0 hx2]
    · intro hc
      apply hc
      constructor
      · dsimp only
        omega
      · dsimp only
        omega

/-- Witness for C5 (amended): on a fresh 3×3 map, `draw` at `(5, 0)`
returns `False` unchanged, and `draw` at `(1, 2)` writes that tile. -/
theorem memento_draw_bounds_witness :
    MementoMod.MapBuilder.draw (MementoMod.MapBuilder.init (3, 3)) (5, 0) "x" =
        .ok (MementoMod.MapBuilder.init (3, 3), some false)
    ∧ MementoMod.MapBuilder.draw (MementoMod.MapBuilder.init (3, 3)) (1, 2) "x" =
        .ok (⟨(3, 3), [["-", "-", "-"], ["-", "-", "-"], ["-", "x", "-"]]⟩, none) := by
  constructor
  · exact (memento_draw_bounds (MementoMod.MapBuilder.init (3, 3)) 5 0 3 3 "x"
      rfl rfl (by decide)).1 (Or.inl (by omega))
  · have hdr := (memento_draw_bounds (MementoMod.MapBuilder.init (3, 3)) 1 2 3 3 "x"
      rfl rfl (by decide)).2 (by omega) (by omega) (by omega) (by omega)
    rw [hdr]
    rfl

end Theorems
